import Mathlib

/-!
Verification of the layered event-dispatch core of `xair-remote`
(`src/xair/events.py` and its near-duplicate `src/xair/uevents.py`).

The two files implement the same mechanism; their `EventDispatcher`
(`push_handlers` / `pop_handlers` / `dispatch`) bodies are line-for-line
equivalent for everything modelled here (they differ only in where the
`on_event` binding is stored — an attribute on the callable in `events.py`
versus a module-level side table in `uevents.py` — and in whether the
`except` clause in `dispatch` catches `BaseException` or `Exception`;
handler-raised ordinary exceptions are caught and swallowed by both).
Those differences are modelled separately where a claim depends on them.

Modelling conventions:
- Python values that appear as event attributes are `PyVal`
  (`None` or a string; richer payloads play no role in any property).
- A Python dict is an association list with `setKey` (assignment:
  replace the binding for the key, last write wins) and `getKey`
  (first matching key; keys are unique by construction since every
  insertion goes through `setKey`, and `dict(**kwargs)` has unique keys).
- A handler callable is a `Handler`: a distinct identity `hid`
  (Python `id()`) plus its behaviour `run`, which on invocation either
  returns a value of some truthiness or raises an exception.  Callables
  are always truthy, so the `if handler:` test in `dispatch` is exactly
  "the dict lookup found an entry", i.e. `Option.isSome`.
- `dispatch` results are the invocation trace (the `hid`s of the
  handlers invoked, in order) together with the dispatcher state and
  whether an `AssertionError` escaped to the caller.
-/

namespace Xair

/-- A Python value as it occurs in event attribute bags: `None` or a string. -/
inductive PyVal where
  | vNone
  | vStr (s : String)
deriving DecidableEq, Repr

/-- Drop every binding for key `k` (helper for modelling dict assignment). -/
def delKey {κ ν : Type} [DecidableEq κ] : List (κ × ν) → κ → List (κ × ν)
  | [], _ => []
  | (a, b) :: rest, k => if a = k then delKey rest k else (a, b) :: delKey rest k

/-- Python dict assignment `d[k] = v` on an association list: any existing
binding for `k` is removed and the new one recorded (last write wins). -/
def setKey {κ ν : Type} [DecidableEq κ] (tbl : List (κ × ν)) (k : κ) (v : ν) :
    List (κ × ν) :=
  delKey tbl k ++ [(k, v)]

/-- Python dict lookup `d.get(k)` on an association list: first matching key. -/
def getKey {κ ν : Type} [DecidableEq κ] : List (κ × ν) → κ → Option ν
  | [], _ => none
  | (k, v) :: rest, k' => if k = k' then some v else getKey rest k'

theorem getKey_append {κ ν : Type} [DecidableEq κ] (l₁ l₂ : List (κ × ν)) (k : κ) :
    getKey (l₁ ++ l₂) k = ((getKey l₁ k).rec (getKey l₂ k) (fun v => some v) : Option ν) := by
  induction l₁ with
  | nil => simp [getKey]
  | cons p rest ih =>
    obtain ⟨a, b⟩ := p
    by_cases h : a = k <;> simp [getKey, h, ih]

theorem getKey_delKey_self {κ ν : Type} [DecidableEq κ] (tbl : List (κ × ν)) (k : κ) :
    getKey (delKey tbl k) k = none := by
  induction tbl with
  | nil => simp [delKey, getKey]
  | cons p rest ih =>
    obtain ⟨a, b⟩ := p
    by_cases h : a = k <;> simp [delKey, h, getKey, ih]

theorem getKey_setKey_self {κ ν : Type} [DecidableEq κ] (tbl : List (κ × ν)) (k : κ) (v : ν) :
    getKey (setKey tbl k v) k = some v := by
  rw [setKey, getKey_append, getKey_delKey_self]
  simp [getKey]

theorem getKey_delKey_other {κ ν : Type} [DecidableEq κ] (tbl : List (κ × ν))
    (k k' : κ) (hne : k' ≠ k) :
    getKey (delKey tbl k) k' = getKey tbl k' := by
  induction tbl with
  | nil => simp [delKey]
  | cons p rest ih =>
    obtain ⟨a, b⟩ := p
    by_cases h : a = k
    · subst h
      simp [delKey, getKey, Ne.symm hne, ih]
    · by_cases h' : a = k' <;> simp [delKey, h, getKey, h', hne, ih]

theorem getKey_setKey_other {κ ν : Type} [DecidableEq κ] (tbl : List (κ × ν))
    (k k' : κ) (v : ν) (hne : k' ≠ k) :
    getKey (setKey tbl k v) k' = getKey tbl k' := by
  rw [setKey, getKey_append, getKey_delKey_other tbl k k' hne]
  cases h : getKey tbl k' <;> simp [getKey, Ne.symm hne]

/-!
### Events

`events.py` line 28-33: `class Bunch(dict)` whose `__init__` performs
`self.__dict__ = self`, so attribute lookup and dict lookup share one
storage; `class Event(Bunch)` (line 50-52) adds the class attribute
`type = None`, which Python attribute lookup falls back to only when the
instance `__dict__` (= the dict contents) has no entry.

`uevents.py` line 27-35: `class Event(dict)` with class attribute
`type = None`; `__init__` stores the keyword arguments into the *dict
contents* via `self.update(...)` (the instance `__dict__` stays empty),
and `__getattr__` (which Python calls only after normal attribute lookup
fails) returns `self[name]`.  Normal attribute lookup on `type` succeeds
with the class attribute `None`, so `__getattr__` never runs for `type`;
for any other caller-defined field it falls through to the dict entry.
`type` is the only data attribute either `Event` class declares.
-/

/-- Event storage: the dict contents after construction from keyword
arguments (Python guarantees the keys are distinct). -/
abbrev Storage : Type := List (String × PyVal)

/-- Dict-style lookup `e[name]` on an `events.py` `Bunch`/`Event`. -/
def bunchDictGet (st : Storage) (name : String) : Option PyVal :=
  getKey st name

/-- Attribute access `e.name` on an `events.py` `Event` (a `Bunch` with
class attribute `type = None`): instance `__dict__` — which *is* the dict
contents, by `self.__dict__ = self` — first, then the class attribute. -/
def eventsAttrGet (st : Storage) (name : String) : Option PyVal :=
  match getKey st name with
  | some v => some v
  | none => if name = "type" then some PyVal.vNone else none

/-- Dict-style lookup `e[name]` on a `uevents.py` `Event`. -/
def ueventsDictGet (st : Storage) (name : String) : Option PyVal :=
  getKey st name

/-- Attribute access `e.name` on a `uevents.py` `Event`: normal lookup
(instance `__dict__` is empty; the class attribute `type = None` is found
for `name = "type"`) and only on failure `__getattr__`, i.e. `self[name]`. -/
def ueventsAttrGet (st : Storage) (name : String) : Option PyVal :=
  if name = "type" then some PyVal.vNone else getKey st name

/-- An event value as seen by `dispatch`: an instance of the
`events.py`/`uevents.py` `Event` class, i.e. its dict contents. -/
structure EventV where
  fields : Storage

/-- `event.type` as `dispatch` reads it (attribute access on an
`events.py` event; total, because the class attribute backstops it). -/
def etype (e : EventV) : PyVal :=
  (eventsAttrGet e.fields "type").getD PyVal.vNone

/-!
### Handlers and the dispatcher state

A handler callable: `hid` is its Python identity, `run` its behaviour
when invoked with an event — it returns a value of some truthiness or
raises an exception.
-/

/-- Outcome of invoking a handler: it returns (with the given
truthiness), or it raises an exception. -/
inductive HRes where
  | ret (truthy : Bool)
  | exn
deriving DecidableEq, Repr

/-- A handler callable: Python identity plus invocation behaviour.
Callables are truthy, so the `if handler:` test in `dispatch` holds
exactly when the layer lookup found an entry. -/
structure Handler where
  hid : Nat
  run : EventV → HRes

/-- One handler layer: the dict built by one `push_handlers` call,
mapping event-type tag to handler. -/
abbrev Layer : Type := List (String × Handler)

/-- `handlers.get(event.type, None)`: the dict keys are strings (tags),
so a `None` event type matches nothing. -/
def layerGet (L : Layer) : PyVal → Option Handler
  | PyVal.vStr t => getKey L t
  | PyVal.vNone => none

/-- The dispatcher's `_handler_stack`: Python list, topmost layer last.
A dispatcher on which no operation has run has no `_handler_stack`
attribute; every operation treats that identically to the empty list
(`getattr(self, '_handler_stack', [])` / create-empty-then-use), so the
state is just the list. -/
abbrev Stack : Type := List Layer

/-!
### dispatch (`events.py` 109-124, `uevents.py` 88-103)

For each event: `assert isinstance(event, Event)`; then walk
`reversed(self._handler_stack)` (newest layer first); at each layer
`handlers.get(event.type, None)`; if found, invoke inside `try`: a
truthy return `break`s the walk, an exception is caught and logged and
the walk continues, a falsy return continues.  The result we track is
the invocation trace (handler identities, in order).
-/

/-- The per-event walk over the layers, newest first.  Returns the
trace of invoked handler identities. -/
def walk (e : EventV) : List Layer → List Nat
  | [] => []
  | L :: older =>
    match layerGet L (etype e) with
    | none => walk e older
    | some h =>
      match h.run e with
      | HRes.ret true => [h.hid]
      | HRes.ret false => h.hid :: walk e older
      | HRes.exn => h.hid :: walk e older

/-- Dispatch of a single (valid) event over the stack. -/
def dispatchOne (stack : Stack) (e : EventV) : List Nat :=
  walk e stack.reverse

/-- An argument to `dispatch(*events)`: an `Event` instance, or any
other Python value (which fails the `isinstance` assert). -/
inductive PyArg where
  | ev (e : EventV)
  | nonEvent (n : Nat)

/-- `dispatch(*events)` over the whole argument list: resulting state,
invocation trace, and whether an `AssertionError` escaped to the caller.
The `assert` aborts the entire call, so nothing after a non-event
argument is processed.  Handler exceptions never reach this level: they
are consumed inside `walk` (the `try`/`except` around the invocation). -/
def dispatch (stack : Stack) : List PyArg → Stack × List Nat × Bool
  | [] => (stack, [], false)
  | PyArg.nonEvent _ :: _ => (stack, [], true)
  | PyArg.ev e :: rest =>
    let r := dispatch stack rest
    (r.1, dispatchOne stack e ++ r.2.1, r.2.2)

/-!
### push_handlers (`events.py` 65-99, `uevents.py` 44-78)

Positional arguments are subscriber sources: either a callable that
itself carries an `on_event` binding, or an object whose members are
enumerated (`inspect.getmembers`, which yields them sorted by name; the
model takes the enumeration sequence as given).  Member names starting
with `__` are skipped; a member registers iff its binding is present and
truthy (a non-empty tag).  `on_event` stores tags already normalized to
strings (`event.type if is_event(event) else event`), so bindings are
modelled as strings; the redundant re-normalization inside
`push_handlers` (for an `Event`-instance binding) is the identity on
them.  Keyword arguments then override: `is_event` is false on a string
key, so the tag is the keyword name itself and `layer[tag] = handler`.
-/

/-- One enumerated member of a subscriber source: its attribute name,
its `on_event` binding (if any), and the callable. -/
structure Member where
  name : String
  binding : Option String
  h : Handler

/-- A positional argument to `push_handlers`. -/
inductive Source where
  | bound (h : Handler) (tag : String)
  | obj (members : List Member)

/-- The body of the member loop: skip `__`-prefixed names, register
iff the binding is a truthy (non-empty) tag; dict assignment. -/
def regMember (L : Layer) (m : Member) : Layer :=
  if m.name.startsWith "__" then L
  else
    match m.binding with
    | some t => if t = "" then L else setKey L t m.h
    | none => L

/-- Process one positional source.  A directly-bound callable is the
single pseudo-member `(('', obj),)` fed to the same loop. -/
def regSource (L : Layer) : Source → Layer
  | Source.bound h tag => regMember L ⟨"", some tag, h⟩
  | Source.obj ms => ms.foldl regMember L

/-- The layer built by one `push_handlers` call: positional sources in
order, then the keyword bindings in order. -/
def buildLayer (sources : List Source) (kwargs : List (String × Handler)) : Layer :=
  kwargs.foldl (fun L p => setKey L p.1 p.2) (sources.foldl regSource [])

/-- `push_handlers`: append the newly built layer at the top (tail). -/
def push_handlers (stack : Stack) (sources : List Source)
    (kwargs : List (String × Handler)) : Stack :=
  stack ++ [buildLayer sources kwargs]

/-- The Python errors the dispatcher surfaces to its caller. -/
inductive PyErr where
  | indexError
  | assertionError
deriving DecidableEq, Repr

/-- `pop_handlers` (`events.py` 101-107):
`return getattr(self, '_handler_stack', []).pop()` — `IndexError` on an
empty (or never-created) stack, otherwise remove and return the last
(topmost) layer. -/
def pop_handlers (stack : Stack) : Except PyErr (Layer × Stack) :=
  match stack.getLast? with
  | none => Except.error PyErr.indexError
  | some L => Except.ok (L, stack.dropLast)

/-!
### Walk lemmas
-/

theorem walk_append_none (e : EventV) (ls₁ ls₂ : List Layer)
    (hno : ∀ L ∈ ls₁, layerGet L (etype e) = none) :
    walk e (ls₁ ++ ls₂) = walk e ls₂ := by
  induction ls₁ with
  | nil => rfl
  | cons L rest ih =>
    have h := hno L (List.mem_cons_self L rest)
    simp only [List.cons_append, walk, h]
    exact ih (fun L' hL' => hno L' (List.mem_cons_of_mem L hL'))

theorem walk_cons_found (e : EventV) (L : Layer) (rest : List Layer) (h : Handler)
    (hfound : layerGet L (etype e) = some h) :
    walk e (L :: rest) =
      h.hid :: (if h.run e = HRes.ret true then [] else walk e rest) := by
  cases hr : h.run e with
  | ret b => cases b <;> simp [walk, hfound, hr]
  | exn => simp [walk, hfound, hr]

theorem hid_not_mem_walk (e : EventV) (ls : List Layer) (n : Nat)
    (hno : ∀ L ∈ ls, ∀ h : Handler, layerGet L (etype e) = some h → h.hid ≠ n) :
    n ∉ walk e ls := by
  induction ls with
  | nil => simp [walk]
  | cons L rest ih =>
    have ih' := ih (fun L' hL' => hno L' (List.mem_cons_of_mem L hL'))
    cases hfound : layerGet L (etype e) with
    | none => simpa [walk, hfound] using ih'
    | some h =>
      have hne : n ≠ h.hid :=
        Ne.symm (hno L (List.mem_cons_self L rest) h hfound)
      cases hr : h.run e with
      | ret b =>
        cases b
        · simp [walk, hfound, hr, hne]
          exact ih'
        · simp [walk, hfound, hr, hne]
      | exn =>
        simp [walk, hfound, hr, hne]
        exact ih'

/-!
### The claims
-/

/-- C5: `pop_handlers` on an empty layer stack — including a dispatcher
on which `push_handlers` was never called, whose missing
`_handler_stack` attribute `getattr(..., [])` replaces by a fresh empty
list — raises `IndexError` (the empty-stack error) to the caller; on a
non-empty stack it removes and returns the topmost (last) layer. -/
theorem c5_pop_empty_errors_pop_top
    : pop_handlers ([] : Stack) = Except.error PyErr.indexError ∧
      ∀ (st : Stack) (L : Layer), pop_handlers (st ++ [L]) = Except.ok (L, st) := by
  refine ⟨rfl, fun st L => ?_⟩
  simp [pop_handlers, List.getLast?_concat, List.dropLast_concat]

/-- C9: for every dispatcher state and every argument list,
`push_handlers` appends exactly one layer at the tail, and the matching
`pop_handlers` removes and returns exactly that layer, restoring the
stack to its prior state (push and pop are exact inverses).  (A fresh
dispatcher's missing `_handler_stack` attribute versus a present empty
list is unobservable: every operation treats the two identically.) -/
theorem c9_push_pop_exact_inverse (st : Stack) (sources : List Source)
    (kwargs : List (String × Handler)) :
    push_handlers st sources kwargs = st ++ [buildLayer sources kwargs] ∧
    pop_handlers (push_handlers st sources kwargs) =
      Except.ok (buildLayer sources kwargs, st) := by
  refine ⟨rfl, ?_⟩
  simp [push_handlers, pop_handlers, List.getLast?_concat, List.dropLast_concat]

/-- C10: `dispatch` never modifies the dispatcher's layer stack: for
every stack state and argument list, the stack after the call — threaded
through the whole per-event loop — is exactly the stack before it.
(Handlers are modelled as returning a result or raising, i.e. not
mutating the dispatcher, which is the claim's own proviso.) -/
theorem c10_dispatch_preserves_stack (st : Stack) (args : List PyArg) :
    (dispatch st args).1 = st := by
  induction args with
  | nil => rfl
  | cons a rest ih => cases a <;> simp [dispatch, ih]

/-- C2 (code bug in `uevents.py`): for the event constructed as
`Event(type='click', pos=(23, 42))`, dict-style lookup of `type` returns
the construction value `'click'` in both implementations, and
`events.py`'s `Bunch`-based attribute access does too; but `uevents.py`'s
attribute access `e.type` returns the class attribute `None` — Python's
normal attribute lookup succeeds on the class attribute `type = None`,
so `__getattr__` (the dict fallback) never runs.  `uevents.py`'s own
`_test` (lines 113-137) constructs exactly such an event and dispatches
it expecting the `'click'` handler to fire; since `dispatch` routes on
`event.type`, which is `None`, that handler is never invoked. -/
theorem c2_uevents_type_attr_returns_class_default
    : ueventsDictGet [("type", PyVal.vStr "click"), ("pos", PyVal.vStr "23, 42")] "type"
        = some (PyVal.vStr "click") ∧
      ueventsAttrGet [("type", PyVal.vStr "click"), ("pos", PyVal.vStr "23, 42")] "type"
        = some PyVal.vNone ∧
      bunchDictGet [("type", PyVal.vStr "click"), ("pos", PyVal.vStr "23, 42")] "type"
        = some (PyVal.vStr "click") ∧
      eventsAttrGet [("type", PyVal.vStr "click"), ("pos", PyVal.vStr "23, 42")] "type"
        = some (PyVal.vStr "click") :=
  ⟨rfl, rfl, rfl, rfl⟩

/-- C6 counterexample: `dispatch` called with a non-event first argument
and a well-formed click event second, against a stack holding a click
handler.  The `assert isinstance(event, Event)` raises an
`AssertionError` that propagates out of the whole `for event in events`
loop, so the event *after* the malformed input is never processed — its
handler (identity 6) is not invoked (empty trace), although dispatching
it alone would invoke it.  The claim's "the events after `ei` are still
processed" is false on the code. -/
theorem c6_counterexample
    : dispatch [[("click", ⟨6, fun _ => HRes.ret true⟩)]]
        [PyArg.nonEvent 0, PyArg.ev ⟨[("type", PyVal.vStr "click")]⟩]
        = ([[("click", ⟨6, fun _ => HRes.ret true⟩)]], [], true) ∧
      dispatchOne [[("click", ⟨6, fun _ => HRes.ret true⟩)]]
        ⟨[("type", PyVal.vStr "click")]⟩ = [6] :=
  ⟨rfl, rfl⟩

/-- C6 amended: a non-event argument makes `dispatch` fail with the
invalid-event error (`AssertionError`) immediately upon reaching it; the
events before it are fully dispatched, and the error aborts the whole
call, so the events after it are *not* processed. -/
theorem c6_assert_aborts_remaining_events (st : Stack) (pre : List EventV)
    (n : Nat) (post : List PyArg) :
    dispatch st (pre.map PyArg.ev ++ PyArg.nonEvent n :: post)
      = (st, (dispatch st (pre.map PyArg.ev)).2.1, true) := by
  induction pre with
  | nil => rfl
  | cons e rest ih => simp [dispatch, ih]

/-!
### Handler binding (`on_event`)

`events.py` line 18-25: the decorator executes
`func._handler_for = event.type if is_event(event) else event` and
returns `func` — a property mutation of the callable itself.  The
binding target is modelled as the already-normalized tag string.

`uevents.py` line 16-24: the decorator executes
`_handler_to_event[func] = ...` — a module-level side table keyed by the
callable — and returns `func`; the callable's attributes are untouched.
A callable is modelled as its Python identity together with its
attribute dict.
-/

/-- A callable's attribute dict (name to value, values as tag strings
suffice here). -/
abbrev FuncAttrs : Type := List (String × String)

/-- The `uevents.py` module-level `_handler_to_event` side table:
callable identity to bound tag. -/
abbrev SideTable : Type := List (Nat × String)

/-- `events.py` `on_event`: mutates the callable's attribute dict
(`func._handler_for = tag`) and returns the same callable. -/
def events_on_event (tag : String) (fid : Nat) (fa : FuncAttrs) :
    (Nat × FuncAttrs) :=
  (fid, setKey fa "_handler_for" tag)

/-- `uevents.py` `on_event`: records the binding in the side table keyed
by callable identity and returns the callable with its attribute dict
untouched. -/
def uevents_on_event (tag : String) (fid : Nat) (fa : FuncAttrs)
    (tbl : SideTable) : (Nat × FuncAttrs) × SideTable :=
  ((fid, fa), setKey tbl fid tag)

/-- C7 counterexample: `events.py`'s `on_event` applied to a callable
with no prior properties gives it the new property `_handler_for` — the
association is a property mutation of the callable, not a side-table
entry, so "f has no new properties afterward" is false on `events.py`. -/
theorem c7_counterexample
    : getKey ((events_on_event "key" 5 []).2) "_handler_for" = some "key" ∧
      getKey ([] : FuncAttrs) "_handler_for" = none :=
  ⟨rfl, rfl⟩

/-- C7 amended: both decorators return the same callable and re-binding
overwrites the prior target; `uevents.py` stores the association in a
side table keyed by callable identity, leaving the callable's properties
unchanged, while `events.py` stores it as the `_handler_for` property
set on the callable itself. -/
theorem c7_binding_storage (t t₁ t₂ : String) (fid : Nat) (fa : FuncAttrs)
    (tbl : SideTable) :
    (uevents_on_event t fid fa tbl).1 = (fid, fa) ∧
    getKey (uevents_on_event t fid fa tbl).2 fid = some t ∧
    getKey (uevents_on_event t₂ fid fa (uevents_on_event t₁ fid fa tbl).2).2 fid
      = some t₂ ∧
    (events_on_event t fid fa).1 = fid ∧
    getKey (events_on_event t fid fa).2 "_handler_for" = some t ∧
    getKey (events_on_event t₂ fid (events_on_event t₁ fid fa).2).2 "_handler_for"
      = some t₂ := by
  refine ⟨rfl, ?_, ?_, rfl, ?_, ?_⟩ <;>
    simp [uevents_on_event, events_on_event, getKey_setKey_self]

/-- C4: with layer A pushed before layer B (stack `[A, B]`, B on top),
both binding a handler for tag `t` (distinct callables), dispatching an
event of type `t` invokes B's handler; if B's handler returns a truthy
signal the walk short-circuits and A's handler is not invoked, and if it
returns a falsy signal A's handler is also invoked, in that order. -/
theorem c4_newest_first_truthy_short_circuits (A B : Layer) (t : String)
    (hA hB : Handler) (e : EventV)
    (hgA : getKey A t = some hA) (hgB : getKey B t = some hB)
    (hne : hA.hid ≠ hB.hid) (het : etype e = PyVal.vStr t) :
    (hB.run e = HRes.ret true →
      dispatchOne [A, B] e = [hB.hid] ∧ hA.hid ∉ dispatchOne [A, B] e) ∧
    (hB.run e = HRes.ret false →
      dispatchOne [A, B] e = [hB.hid, hA.hid]) := by
  have hwB : layerGet B (etype e) = some hB := by rw [het]; exact hgB
  have hwA : layerGet A (etype e) = some hA := by rw [het]; exact hgA
  have hrev : dispatchOne [A, B] e = walk e [B, A] := by
    simp [dispatchOne]
  constructor
  · intro hr
    have heq : dispatchOne [A, B] e = [hB.hid] := by
      rw [hrev, walk_cons_found e B [A] hB hwB, if_pos hr]
    exact ⟨heq, by rw [heq]; simp [hne]⟩
  · intro hr
    have h1 : walk e [A] = [hA.hid] := by
      cases hr' : hA.run e with
      | ret b => cases b <;> simp [walk, hwA, hr']
      | exn => simp [walk, hwA, hr']
    rw [hrev, walk_cons_found e B [A] hB hwB, if_neg (by simp [hr]), h1]

/-- Witness for C4: a concrete two-layer stack; the top handler returns
truthy, so only it is invoked. -/
theorem c4_witness
    : dispatchOne
          [[("t", ⟨0, fun _ => HRes.ret false⟩)], [("t", ⟨1, fun _ => HRes.ret true⟩)]]
          ⟨[("type", PyVal.vStr "t")]⟩ = [1] ∧
      (0 : Nat) ∉ dispatchOne
          [[("t", ⟨0, fun _ => HRes.ret false⟩)], [("t", ⟨1, fun _ => HRes.ret true⟩)]]
          ⟨[("type", PyVal.vStr "t")]⟩ :=
  (c4_newest_first_truthy_short_circuits
    [("t", ⟨0, fun _ => HRes.ret false⟩)] [("t", ⟨1, fun _ => HRes.ret true⟩)] "t"
    ⟨0, fun _ => HRes.ret false⟩ ⟨1, fun _ => HRes.ret true⟩
    ⟨[("type", PyVal.vStr "t")]⟩ rfl rfl (by decide) rfl).1 rfl

theorem getKey_foldl_setKey_skip (kw : List (String × Handler)) (L : Layer)
    (t : String) (hkw : ∀ p ∈ kw, p.1 ≠ t) :
    getKey (kw.foldl (fun acc p => setKey acc p.1 p.2) L) t = getKey L t := by
  induction kw generalizing L with
  | nil => rfl
  | cons p rest ih =>
    simp only [List.foldl_cons]
    rw [ih _ (fun q hq => hkw q (List.mem_cons_of_mem p hq))]
    exact getKey_setKey_other L p.1 t p.2 (Ne.symm (hkw p (List.mem_cons_self p rest)))

/-- C8: within one `push_handlers` call, (a) a second registration for
the same tag from the positional member loop replaces the first (last
write wins; the member enumeration order is `inspect.getmembers`'s), and
(b) an explicit keyword binding `(t', h)` overrides any same-tag
registration made from the positional sources of that call (and any
earlier keyword binding), since the keyword loop runs last and assigns
into the same layer dict. -/
theorem c8_last_write_wins_kwargs_override
    (m₁ m₂ : Member) (t : String) (sources : List Source)
    (kw₁ kw₂ : List (String × Handler)) (t' : String) (h : Handler)
    (hb₁ : m₁.binding = some t) (hb₂ : m₂.binding = some t)
    (hn₁ : ¬ m₁.name.startsWith "__") (hn₂ : ¬ m₂.name.startsWith "__")
    (ht : t ≠ "") (hkw : ∀ p ∈ kw₂, p.1 ≠ t') :
    getKey (buildLayer [Source.obj [m₁, m₂]] []) t = some m₂.h ∧
    getKey (buildLayer sources (kw₁ ++ (t', h) :: kw₂)) t' = some h := by
  constructor
  · have h1 : regMember [] m₁ = setKey [] t m₁.h := by
      simp [regMember, hn₁, hb₁, ht]
    have h2 : regMember (setKey [] t m₁.h) m₂ = setKey (setKey [] t m₁.h) t m₂.h := by
      simp [regMember, hn₂, hb₂, ht]
    simp [buildLayer, regSource, h1, h2, getKey_setKey_self]
  · simp only [buildLayer, List.foldl_append, List.foldl_cons]
    rw [getKey_foldl_setKey_skip _ _ _ hkw, getKey_setKey_self]

/-- Witness for C8: two members of one source bound to the same tag —
the second wins; a keyword binding for another tag lands in the layer. -/
theorem c8_witness
    : getKey (buildLayer
          [Source.obj [⟨"a", some "t", ⟨0, fun _ => HRes.ret true⟩⟩,
                       ⟨"b", some "t", ⟨1, fun _ => HRes.ret true⟩⟩]] [])
          "t" = some ⟨1, fun _ => HRes.ret true⟩ ∧
      getKey (buildLayer [] ([] ++ ("u", ⟨2, fun _ => HRes.ret false⟩) :: []))
          "u" = some ⟨2, fun _ => HRes.ret false⟩ :=
  c8_last_write_wins_kwargs_override
    ⟨"a", some "t", ⟨0, fun _ => HRes.ret true⟩⟩
    ⟨"b", some "t", ⟨1, fun _ => HRes.ret true⟩⟩
    "t" [] [] [] "u" ⟨2, fun _ => HRes.ret false⟩
    rfl rfl (by decide) (by decide) (by decide) (by simp)

/-- C3: a handler that raises during dispatch is contained: with the
raising handler `hB` bound to `t` in some layer `LB` (no newer layer
binding `t`), and `hA` the handler of the topmost older layer binding
`t`, dispatching one event of type `t` surfaces no exception to the
caller (`dispatch` returns normally, the `AssertionError` flag is
false), invokes `hB`, and still invokes the older layer's `hA` — the
`try`/`except` around the invocation swallows the exception and the walk
continues (both `events.py` and `uevents.py` catch and log there). -/
theorem c3_handler_exception_contained
    (bOld bNew above : Stack) (LA LB : Layer) (t : String)
    (hA hB : Handler) (e : EventV)
    (habove : ∀ L ∈ above, getKey L t = none)
    (hbNew : ∀ L ∈ bNew, getKey L t = none)
    (hLB : getKey LB t = some hB) (hexn : hB.run e = HRes.exn)
    (hLA : getKey LA t = some hA) (het : etype e = PyVal.vStr t) :
    (dispatch ((bOld ++ [LA] ++ bNew) ++ [LB] ++ above) [PyArg.ev e]).2.2 = false ∧
    hB.hid ∈ (dispatch ((bOld ++ [LA] ++ bNew) ++ [LB] ++ above) [PyArg.ev e]).2.1 ∧
    hA.hid ∈ (dispatch ((bOld ++ [LA] ++ bNew) ++ [LB] ++ above) [PyArg.ev e]).2.1 := by
  have hgB : layerGet LB (etype e) = some hB := by rw [het]; exact hLB
  have hgA : layerGet LA (etype e) = some hA := by rw [het]; exact hLA
  have habove' : ∀ L ∈ above.reverse, layerGet L (etype e) = none := by
    intro L hL
    rw [het]
    exact habove L (List.mem_reverse.mp hL)
  have hbNew' : ∀ L ∈ bNew.reverse, layerGet L (etype e) = none := by
    intro L hL
    rw [het]
    exact hbNew L (List.mem_reverse.mp hL)
  have hrev : ((bOld ++ [LA] ++ bNew) ++ [LB] ++ above).reverse
      = above.reverse ++ (LB :: (bNew.reverse ++ (LA :: bOld.reverse))) := by
    simp
  have htr : (dispatch ((bOld ++ [LA] ++ bNew) ++ [LB] ++ above) [PyArg.ev e]).2.1
      = walk e (above.reverse ++ (LB :: (bNew.reverse ++ (LA :: bOld.reverse)))) := by
    simp [dispatch, dispatchOne, hrev]
  have hwalk1 : walk e (above.reverse ++ (LB :: (bNew.reverse ++ (LA :: bOld.reverse))))
      = hB.hid :: walk e (bNew.reverse ++ (LA :: bOld.reverse)) := by
    rw [walk_append_none e _ _ habove', walk_cons_found e _ _ hB hgB,
      if_neg (by simp [hexn])]
  have hwalk2 : walk e (bNew.reverse ++ (LA :: bOld.reverse))
      = hA.hid :: (if hA.run e = HRes.ret true then [] else walk e bOld.reverse) := by
    rw [walk_append_none e _ _ hbNew', walk_cons_found e _ _ hA hgA]
  refine ⟨rfl, ?_, ?_⟩
  · rw [htr, hwalk1]
    exact List.mem_cons_self _ _
  · rw [htr, hwalk1, hwalk2]
    exact List.mem_cons_of_mem _ (List.mem_cons_self _ _)

/-- Witness for C3: a two-layer stack whose top handler (identity 1)
raises; the older layer's handler (identity 2) is still invoked and no
exception reaches the caller. -/
theorem c3_witness
    : (dispatch [[("t", ⟨2, fun _ => HRes.ret true⟩)], [("t", ⟨1, fun _ => HRes.exn⟩)]]
          [PyArg.ev ⟨[("type", PyVal.vStr "t")]⟩]).2.2 = false ∧
      (1 : Nat) ∈ (dispatch [[("t", ⟨2, fun _ => HRes.ret true⟩)], [("t", ⟨1, fun _ => HRes.exn⟩)]]
          [PyArg.ev ⟨[("type", PyVal.vStr "t")]⟩]).2.1 ∧
      (2 : Nat) ∈ (dispatch [[("t", ⟨2, fun _ => HRes.ret true⟩)], [("t", ⟨1, fun _ => HRes.exn⟩)]]
          [PyArg.ev ⟨[("type", PyVal.vStr "t")]⟩]).2.1 := by
  have h := c3_handler_exception_contained [] [] []
      [("t", ⟨2, fun _ => HRes.ret true⟩)] [("t", ⟨1, fun _ => HRes.exn⟩)] "t"
      ⟨2, fun _ => HRes.ret true⟩ ⟨1, fun _ => HRes.exn⟩
      ⟨[("type", PyVal.vStr "t")]⟩ (by simp) (by simp) rfl rfl rfl rfl
  simpa using h

/-- C1 counterexample: the claim fails when the *same* callable is also
bound to `t` in an older layer and its invocation returns a falsy
signal.  Stack: two layers, both binding `"t"` to the handler with
identity 7, which returns falsy.  The topmost layer binds `t` and no
layer is above it, yet dispatching one event of type `t` invokes the
handler twice, not exactly once. -/
theorem c1_counterexample
    : dispatchOne
          [[("t", ⟨7, fun _ => HRes.ret false⟩)], [("t", ⟨7, fun _ => HRes.ret false⟩)]]
          ⟨[("type", PyVal.vStr "t")]⟩ = [7, 7] ∧
      ¬ (dispatchOne
          [[("t", ⟨7, fun _ => HRes.ret false⟩)], [("t", ⟨7, fun _ => HRes.ret false⟩)]]
          ⟨[("type", PyVal.vStr "t")]⟩).count 7 = 1 :=
  ⟨rfl, by decide⟩

/-- C1 amended: if some layer binds the non-empty tag `t` to handler
`h`, no layer above it binds `t`, and no layer below it binds `t` to a
handler with `h`'s identity, then dispatching one event of type `t`
invokes `h` exactly once.  (The counterexample forces the added proviso
about older layers: with the same callable bound to `t` below, a falsy
return or an exception lets the walk reach it again.) -/
theorem c1_topmost_handler_invoked_once
    (below above : Stack) (L : Layer) (t : String) (h : Handler) (e : EventV)
    (ht : t ≠ "")
    (hL : getKey L t = some h)
    (habove : ∀ A ∈ above, getKey A t = none)
    (hbelow : ∀ B ∈ below, ∀ h' : Handler, getKey B t = some h' → h'.hid ≠ h.hid)
    (het : etype e = PyVal.vStr t) :
    ((dispatch (below ++ [L] ++ above) [PyArg.ev e]).2.1).count h.hid = 1 := by
  have hgL : layerGet L (etype e) = some h := by rw [het]; exact hL
  have habove' : ∀ A ∈ above.reverse, layerGet A (etype e) = none := by
    intro A hA
    rw [het]
    exact habove A (List.mem_reverse.mp hA)
  have hrev : (below ++ [L] ++ above).reverse
      = above.reverse ++ (L :: below.reverse) := by
    simp
  have htr : (dispatch (below ++ [L] ++ above) [PyArg.ev e]).2.1
      = walk e (above.reverse ++ (L :: below.reverse)) := by
    simp [dispatch, dispatchOne, hrev]
  have hnot : h.hid ∉ walk e below.reverse := by
    apply hid_not_mem_walk
    intro B hB h' hfound
    rw [het] at hfound
    exact hbelow B (List.mem_reverse.mp hB) h' hfound
  rw [htr, walk_append_none e _ _ habove', walk_cons_found e _ _ h hgL]
  by_cases hr : h.run e = HRes.ret true
  · simp [hr]
  · rw [if_neg hr, List.count_cons_self, List.count_eq_zero.mpr hnot]

/-- Witness for C1 (amended): a single layer binding `"t"` to the
handler with identity 3; dispatching one event of type `"t"` invokes it
exactly once. -/
theorem c1_witness
    : ((dispatch [[("t", ⟨3, fun _ => HRes.ret true⟩)]]
          [PyArg.ev ⟨[("type", PyVal.vStr "t")]⟩]).2.1).count 3 = 1 := by
  have h := c1_topmost_handler_invoked_once [] [] [("t", ⟨3, fun _ => HRes.ret true⟩)]
      "t" ⟨3, fun _ => HRes.ret true⟩ ⟨[("type", PyVal.vStr "t")]⟩
      (by decide) rfl (by simp) (by simp) rfl
  simpa using h

end Xair
